import Mathlib

/-!
Shallow embedding of the IMDBCrawler repository (five Python scripts that
crawl IMDB plot-summary pages keyed by `ttNNNNNNN` identifiers, persisting a
pending-key queue in a text file).  Each definition below is translated from
a named function in the source; theorems check the spec's claims against the
embedded code.
-/

namespace IMDB

/-- Python `str.strip()` whitespace set (ASCII whitespace as used by the
queue files). -/
def isPySpace (c : Char) : Bool :=
  c = ' ' || c = '\t' || c = '\n' || c = '\r' || c = '\x0b' || c = '\x0c'

/-- Python `line.strip()` on the character list of a string. -/
def pyStripList (l : List Char) : List Char :=
  ((l.dropWhile isPySpace).reverse.dropWhile isPySpace).reverse

/-- Python `line.strip()`. -/
def pyStrip (s : String) : String :=
  String.mk (pyStripList s.data)

/-- ASCII lower-casing of one character, as Python `str.lower()` does for
the ASCII markers the crawlers search for. -/
def lowerChar (c : Char) : Char :=
  if 'A' ≤ c ∧ c ≤ 'Z' then Char.ofNat (c.toNat + 32) else c

/-- Python `html.lower()`. -/
def pyLower (s : String) : String :=
  String.mk (s.data.map lowerChar)

/-- Scan helper for substring containment: does `needle` occur starting at
some position of the list? -/
def subAux (needle : List Char) : List Char → Bool
  | [] => needle.isEmpty
  | c :: rest => needle.isPrefixOf (c :: rest) || subAux needle rest

/-- Python `needle in hay` on strings. -/
def containsSub (hay needle : String) : Bool :=
  subAux needle.data hay.data

/-- Python `s.startswith(pre)`. -/
def pyStartsWith (s pre : String) : Bool :=
  pre.data.isPrefixOf s.data

/-!  ## WorkQueue operations

`remove_id` / `remove_id_from_file` (imdb_crawler_request.py lines 48-60,
imdb_crawler_playwright_single_threaded.py lines 77-95,
imdb_crawler_playwright_multi_threaded.py lines 45-60): read all lines,
keep every line whose stripped form differs from the key, write them back.
A file is modelled as its list of lines. -/

/-- `new_lines = [line for line in lines if line.strip() != imdb_id]`
followed by rewriting the file with exactly `new_lines`. -/
def removeId (imdb_id : String) (file : List String) : List String :=
  file.filter (fun line => pyStrip line != imdb_id)

/-- `read_imdb_ids_from_file` of the playwright multi-threaded variant
(lines 32-43): `[line.strip() for line in f if line.strip().startswith("tt")]`. -/
def readIdsMulti (lines : List String) : List String :=
  (lines.filter (fun line => pyStartsWith (pyStrip line) "tt")).map pyStrip

/-- `read_imdb_ids_from_file` of the playwright single-threaded and selenium
variants (an append loop keeping stripped lines with
`line.startswith("tt") and len(line) >= 9`). -/
def readIdsSingle (lines : List String) : List String :=
  (lines.filter
    (fun line =>
      pyStartsWith (pyStrip line) "tt" && decide (9 ≤ (pyStrip line).length))).map pyStrip

/-!  ## Theorems for claim C1 -/

/-- C1: queue removal is idempotent — `remove(k)` applied twice leaves the
backing file identical to applying it once, and when no line of the file
carries the key `k` (no line strips to `k`), `remove(k)` leaves the file
unchanged: a no-op, not an error. -/
theorem removeId_idempotent_and_absent_noop (k : String) (file : List String) :
    removeId k (removeId k file) = removeId k file ∧
    ((∀ l ∈ file, pyStrip l ≠ k) → removeId k file = file) := by
  constructor
  · simp [removeId, List.filter_filter]
  · intro habs
    apply List.filter_eq_self.mpr
    intro l hl
    simpa using habs l hl

/-- C1 witness: the removal theorem evaluated on a concrete file in which
the key `tt9999999` is absent. -/
theorem removeId_idempotent_witness :
    removeId "tt9999999" (removeId "tt9999999" ["tt0111161", "tt0068646"]) =
      removeId "tt9999999" ["tt0111161", "tt0068646"] ∧
    removeId "tt9999999" ["tt0111161", "tt0068646"] = ["tt0111161", "tt0068646"] :=
  ⟨(removeId_idempotent_and_absent_noop "tt9999999" ["tt0111161", "tt0068646"]).1,
   (removeId_idempotent_and_absent_noop "tt9999999" ["tt0111161", "tt0068646"]).2
     (by decide)⟩

/-- Filtering after mapping is mapping after filtering on the composed
predicate (comprehension shapes `[f x for x in l if p (f x)]`). -/
theorem filter_map_swap (l : List String) (f : String → String) (p : String → Bool) :
    (l.map f).filter p = (l.filter (fun x => p (f x))).map f := by
  induction l with
  | nil => rfl
  | cons a t ih =>
    simp only [List.map_cons, List.filter_cons]
    cases p (f a) <;> simp [ih]

/-!  ## Theorems for claim C5 -/

/-- C5: `load()` returns exactly the stripped lines satisfying the
key-format predicate, in file order (the multi-threaded variant checks the
`tt` prefix, the single-threaded/selenium variant checks the `tt` prefix
and a minimum length of 9), and blank lines never contribute a key. -/
theorem readIds_filter_spec (lines : List String) :
    readIdsMulti lines =
      (lines.map pyStrip).filter (fun key => pyStartsWith key "tt") ∧
    readIdsSingle lines =
      (lines.map pyStrip).filter
        (fun key => pyStartsWith key "tt" && decide (9 ≤ key.length)) ∧
    "" ∉ readIdsMulti lines ∧ "" ∉ readIdsSingle lines := by
  refine ⟨?_, ?_, ?_, ?_⟩
  · unfold readIdsMulti
    exact (filter_map_swap lines pyStrip (fun key => pyStartsWith key "tt")).symm
  · unfold readIdsSingle
    exact (filter_map_swap lines pyStrip
      (fun key => pyStartsWith key "tt" && decide (9 ≤ key.length))).symm
  · intro hmem
    rcases List.mem_map.mp hmem with ⟨l, hl, hstrip⟩
    have hp := (List.mem_filter.mp hl).2
    rw [hstrip] at hp
    simp [pyStartsWith] at hp
  · intro hmem
    rcases List.mem_map.mp hmem with ⟨l, hl, hstrip⟩
    have hp := (List.mem_filter.mp hl).2
    rw [hstrip] at hp
    simp [pyStartsWith] at hp

/-- C5 witness: the load characterization evaluated on a concrete file
with a valid key, a padded key, a malformed line and a blank line. -/
theorem readIds_filter_witness :
    readIdsMulti ["tt0111161", " tt0068646 ", "notakey", ""] =
      ((["tt0111161", " tt0068646 ", "notakey", ""] : List String).map
        pyStrip).filter (fun key => pyStartsWith key "tt") ∧
    readIdsSingle ["tt0111161", " tt0068646 ", "notakey", ""] =
      ((["tt0111161", " tt0068646 ", "notakey", ""] : List String).map
        pyStrip).filter
          (fun key => pyStartsWith key "tt" && decide (9 ≤ key.length)) ∧
    "" ∉ readIdsMulti ["tt0111161", " tt0068646 ", "notakey", ""] ∧
    "" ∉ readIdsSingle ["tt0111161", " tt0068646 ", "notakey", ""] :=
  readIds_filter_spec ["tt0111161", " tt0068646 ", "notakey", ""]

/-!  ## ContentValidator

`is_content_valid` (imdb_crawler_selenium.py lines 109-135): a length
check, a keyword scan whose failure only produces a warning, and a
negative check for CAPTCHA / access-denied markers. -/

/-- Translation of `IMDBCrawler.is_content_valid`. -/
def is_content_valid (html imdb_id : String) : Bool :=
  if html.length < 10000 then
    false
  else
    let found := ["imdb", imdb_id, "summary", "plot", "synopsis"].any
      (fun kw => containsSub (pyLower html) kw)
    if containsSub (pyLower html) "captcha" ||
        containsSub (pyLower html) "access denied" then
      false
    else if !found then
      true
    else
      true

/-!  ## Theorems for claim C9 -/

/-- C9: content validation rejects exactly the contents that are shorter
than the 10000-character threshold or carry an access-denial marker
(`captcha` / `access denied` in the lower-cased page); in particular it
accepts long, denial-free content regardless of the topical keywords —
keyword absence alone never rejects, since the result does not depend on
the keyword scan at all. -/
theorem is_content_valid_iff (html imdb_id : String) :
    is_content_valid html imdb_id =
      (!decide (html.length < 10000) &&
       !(containsSub (pyLower html) "captcha" ||
         containsSub (pyLower html) "access denied")) := by
  unfold is_content_valid
  by_cases hlen : html.length < 10000
  · simp [hlen]
  · by_cases hneg : (containsSub (pyLower html) "captcha" ||
        containsSub (pyLower html) "access denied") = true
    · simp [hlen, hneg]
    · simp only [Bool.or_eq_true, not_or] at hneg
      by_cases hfound : (["imdb", imdb_id, "summary", "plot", "synopsis"].any
          (fun kw => containsSub (pyLower html) kw)) = true <;>
        simp [hlen, hneg.1, hneg.2, hfound]

/-- C9 witness: the validation theorem instantiated at a concrete short
page, which evaluates to a rejection. -/
theorem is_content_valid_witness :
    is_content_valid "captcha" "tt0111161" =
      (!decide (("captcha" : String).length < 10000) &&
       !(containsSub (pyLower "captcha") "captcha" ||
         containsSub (pyLower "captcha") "access denied")) :=
  is_content_valid_iff "captcha" "tt0111161"

/-!  ## IMDbDataSplitter (imdb_utils.py lines 74-101)

`split_data_file` reads the data file, keeps the truthy (non-empty)
stripped lines, and writes `ids[:mid]` and `ids[mid:]` with
`mid = total // 2` to the two part files. -/

/-- `ids = [line.strip() for line in f if line.strip()]`. -/
def splitIds (lines : List String) : List String :=
  (lines.filter (fun line => pyStrip line != "")).map pyStrip

/-- `IMDbDataSplitter.split_data_file` on the file's lines: `none` models
the early return on an empty id list (no part file written); otherwise the
two written id sequences. -/
def split_data_file (lines : List String) : Option (List String × List String) :=
  let ids := splitIds lines
  if ids.length = 0 then none
  else some (ids.take (ids.length / 2), ids.drop (ids.length / 2))

/-!  ## Theorems for claim C10 -/

/-- C10: for a non-empty id list the splitter writes two parts whose
concatenation restores the original id sequence in order, the first part
holding exactly `floor(n/2)` ids and the second the remaining
`ceil(n/2) = (n+1)/2` ids. -/
theorem split_data_file_round_trip (lines : List String)
    (hne : splitIds lines ≠ []) :
    ∃ part1 part2,
      split_data_file lines = some (part1, part2) ∧
      part1 ++ part2 = splitIds lines ∧
      part1.length = (splitIds lines).length / 2 ∧
      part2.length = ((splitIds lines).length + 1) / 2 := by
  have hlen : (splitIds lines).length ≠ 0 := by
    simpa [List.length_eq_zero] using hne
  refine ⟨(splitIds lines).take ((splitIds lines).length / 2),
          (splitIds lines).drop ((splitIds lines).length / 2), ?_, ?_, ?_, ?_⟩
  · simp [split_data_file, hlen]
  · exact List.take_append_drop _ _
  · rw [List.length_take]
    exact Nat.min_eq_left (Nat.div_le_self _ _)
  · rw [List.length_drop]
    omega

/-- C10 witness: the splitter round-trip evaluated on a concrete
three-id file. -/
theorem split_data_file_witness :
    ∃ part1 part2,
      split_data_file ["tt0111161", "tt0068646", "tt0468569"] = some (part1, part2) ∧
      part1 ++ part2 = splitIds ["tt0111161", "tt0068646", "tt0468569"] ∧
      part1.length = (splitIds ["tt0111161", "tt0068646", "tt0468569"]).length / 2 ∧
      part2.length = ((splitIds ["tt0111161", "tt0068646", "tt0468569"]).length + 1) / 2 :=
  split_data_file_round_trip ["tt0111161", "tt0068646", "tt0468569"] (by decide)

/-!  ## Run startup (imdb_crawler_playwright_multi_threaded.py lines 161-196)

`read_imdb_ids_from_file` catches any open/read failure and returns `[]`;
`main` checks `if not imdb_ids` and returns before the browser is set up
and before any task is dispatched.  The open step is modelled as
`Option (List String)`: `none` when the backing file cannot be opened. -/

/-- `read_imdb_ids_from_file` including its `except` arm (lines 38-43). -/
def read_imdb_ids_total (openResult : Option (List String)) : List String :=
  match openResult with
  | none => []
  | some lines => readIdsMulti lines

/-- Outcome of `main` up to the point where workers would be dispatched:
the keys handed to `fetch_one` tasks, and whether the run exited at the
empty-queue guard. -/
structure RunStart where
  dispatched : List String
  earlyExit : Bool
  deriving DecidableEq, Repr

/-- `main` lines 170-180: load ids, exit if none, otherwise dispatch all. -/
def mainStart (openResult : Option (List String)) : RunStart :=
  let ids := read_imdb_ids_total openResult
  if ids.isEmpty then { dispatched := [], earlyExit := true }
  else { dispatched := ids, earlyExit := false }

/-!  ## Theorems for claim C8 -/

/-- C8: when the backing pending-key file cannot be opened the load fails,
the failure is fatal to the run and surfaced immediately at startup
(the run takes the early exit), and no key is processed — the dispatched
key list is empty, so no partial processing is attempted. -/
theorem mainStart_unavailable_fatal :
    mainStart none = { dispatched := [], earlyExit := true } ∧
    read_imdb_ids_total none = [] := by
  constructor <;> rfl

/-!  ## RetryPolicy delays

The retry waits of the four variants, over exact rationals; the sampled
uniform jitter is an explicit argument. -/

/-- Playwright multi-threaded (line 151):
`wait = 2 + attempt * 2 + random.uniform(0.5, 1.5)`. -/
def delayMulti (attempt : ℕ) (j : ℚ) : ℚ := 2 + attempt * 2 + j

/-- Expected value of `delayMulti` over the uniform jitter
(the mean of `uniform(0.5, 1.5)` is 1). -/
def expectedDelayMulti (attempt : ℕ) : ℚ := 2 + attempt * 2 + 1

/-- Request variant (line 96) and playwright single-threaded variant
(lines 193-195): `3 + attempt * 2 + random.uniform(0.5, 2.5)`. -/
def delayRequest (attempt : ℕ) (j : ℚ) : ℚ := 3 + attempt * 2 + j

/-- Expected value of `delayRequest` (mean jitter `3/2`). -/
def expectedDelayRequest (attempt : ℕ) : ℚ := 3 + attempt * 2 + 3 / 2

/-- Selenium variant (line 275): the retry wait is
`random.uniform(2.0, 5.0)` — the attempt number is not used. -/
def seleniumRetryDelay (_attempt : ℕ) (u : ℚ) : ℚ := u

/-- Expected value of `seleniumRetryDelay`: constant `7/2` for every
attempt number. -/
def expectedSeleniumRetryDelay (_attempt : ℕ) : ℚ := 7 / 2

/-!  ## Theorems for claim C3 -/

/-- C3 counterexample: the selenium variant's retry wait, cited by the
claim, is not strictly increasing in expectation — its expectation at
attempt 2 equals its expectation at attempt 1. -/
theorem selenium_delay_not_increasing :
    expectedSeleniumRetryDelay 2 = expectedSeleniumRetryDelay 1 ∧
    ¬ expectedSeleniumRetryDelay 1 < expectedSeleniumRetryDelay 2 := by
  constructor
  · rfl
  · intro h
    exact absurd h (by norm_num [expectedSeleniumRetryDelay])

/-- C3 (amended): for the playwright multi-threaded delay
(base 2, increment 2, jitter in `[1/2, 3/2]`) and the request /
single-threaded delay (base 3, increment 2, jitter in `[1/2, 5/2]`),
every sampled delay lies within
`[base + n * increment + jitterMin, base + n * increment + jitterMax]`
and the expected delay is strictly increasing in the attempt number;
the selenium retry wait is excluded, being attempt-independent. -/
theorem backoff_bound_and_mono :
    (∀ (n : ℕ) (j : ℚ), 1 / 2 ≤ j → j ≤ 3 / 2 →
      2 + n * 2 + 1 / 2 ≤ delayMulti n j ∧ delayMulti n j ≤ 2 + n * 2 + 3 / 2) ∧
    (∀ (n : ℕ) (j : ℚ), 1 / 2 ≤ j → j ≤ 5 / 2 →
      3 + n * 2 + 1 / 2 ≤ delayRequest n j ∧ delayRequest n j ≤ 3 + n * 2 + 5 / 2) ∧
    (∀ n m : ℕ, n < m → expectedDelayMulti n < expectedDelayMulti m) ∧
    (∀ n m : ℕ, n < m → expectedDelayRequest n < expectedDelayRequest m) := by
  refine ⟨?_, ?_, ?_, ?_⟩
  · intro n j hlo hhi
    unfold delayMulti
    constructor <;> linarith
  · intro n j hlo hhi
    unfold delayRequest
    constructor <;> linarith
  · intro n m h
    unfold expectedDelayMulti
    have hq : (n : ℚ) < (m : ℚ) := by exact_mod_cast h
    linarith
  · intro n m h
    unfold expectedDelayRequest
    have hq : (n : ℚ) < (m : ℚ) := by exact_mod_cast h
    linarith

/-- C3 witness: the amended bound and monotonicity evaluated at attempt 1
with jitter 1 (multi-threaded) and attempt pair (1,2). -/
theorem backoff_bound_witness :
    (2 + 1 * 2 + 1 / 2 ≤ delayMulti 1 1 ∧ delayMulti 1 1 ≤ 2 + 1 * 2 + 3 / 2) ∧
    expectedDelayMulti 1 < expectedDelayMulti 2 ∧
    expectedDelayRequest 1 < expectedDelayRequest 2 :=
  ⟨backoff_bound_and_mono.1 1 1 (by norm_num) (by norm_num),
   backoff_bound_and_mono.2.2.1 1 2 (by norm_num),
   backoff_bound_and_mono.2.2.2 1 2 (by norm_num)⟩

/-!  ## Whole-run queue accounting (claim C2)

`fetch_one` (imdb_crawler_playwright_multi_threaded.py lines 132-159) and
`worker` (imdb_crawler_request.py lines 99-114) both end in exactly one of
two ways per key: success — `save_html` then `remove_id`(`_from_file`),
key not reported failed — or retry exhaustion — the key is returned as
failed and the queue file is not touched.  `outcome k` abstracts which of
the two terminal branches key `k` reaches; the run processes the loaded
snapshot in order. -/

/-- Process a list of keys against the queue file: returns
`(succeeded, gaveUp, finalFile)`. -/
def runCrawl (outcome : String → Bool) :
    List String → List String → List String × List String × List String
  | [], file => ([], [], file)
  | k :: rest, file =>
    if outcome k then
      let r := runCrawl outcome rest (removeId k file)
      (k :: r.1, r.2.1, r.2.2)
    else
      let r := runCrawl outcome rest file
      (r.1, k :: r.2.1, r.2.2)

/-- The succeeded keys of a run are the keys with a successful outcome,
in order. -/
theorem runCrawl_succeeded (outcome : String → Bool) :
    ∀ (ks file : List String), (runCrawl outcome ks file).1 = ks.filter outcome := by
  intro ks
  induction ks with
  | nil => intro file; rfl
  | cons k rest ih =>
    intro file
    by_cases h : outcome k = true <;> simp [runCrawl, h, ih]

/-- The gave-up keys of a run are the keys with a failed outcome, in
order. -/
theorem runCrawl_gaveUp (outcome : String → Bool) :
    ∀ (ks file : List String),
      (runCrawl outcome ks file).2.1 = ks.filter (fun k => !outcome k) := by
  intro ks
  induction ks with
  | nil => intro file; rfl
  | cons k rest ih =>
    intro file
    by_cases h : outcome k = true <;> simp [runCrawl, h, ih]

/-- Two successive filters equal one filter by the conjunction, keeping
the first predicate on the left. -/
theorem filter_and_swap (p q : String → Bool) (l : List String) :
    (l.filter p).filter q = l.filter (fun a => p a && q a) := by
  rw [List.filter_filter]
  exact List.filter_congr (fun a _ => Bool.and_comm (q a) (p a))

/-- The final queue file keeps exactly the lines whose stripped form is
not among the succeeded keys. -/
theorem runCrawl_file (outcome : String → Bool) :
    ∀ (ks file : List String),
      (runCrawl outcome ks file).2.2 =
        file.filter (fun l => !((ks.filter outcome).contains (pyStrip l))) := by
  intro ks
  induction ks with
  | nil =>
    intro file
    simp [runCrawl, List.filter_eq_self]
  | cons k rest ih =>
    intro file
    by_cases h : outcome k = true
    · simp only [runCrawl, h, if_true, ih, removeId]
      rw [filter_and_swap]
      refine List.filter_congr ?_
      intro l _
      rw [List.filter_cons_of_pos h, List.contains_cons, Bool.not_or]
      rfl
    · have h' : outcome k = false := by simpa using h
      simp [runCrawl, h', ih, List.filter_cons]

/-- Counting lines kept and dropped by a Boolean filter partitions the
list's length. -/
theorem length_filter_split (p : String → Bool) :
    ∀ l : List String,
      (l.filter p).length + (l.filter (fun a => !p a)).length = l.length := by
  intro l
  induction l with
  | nil => rfl
  | cons a t ih =>
    by_cases h : p a = true <;> simp [List.filter_cons, h, ← ih] <;> omega

/-!  ## Theorems for claim C2 -/

/-- C2: queue conservation.  For a run over a duplicate-free loaded
snapshot (`keys`, already stripped by `load()`) in which the first `m`
keys are attempted: a key is removed from the pending file exactly when
it succeeds; a give-up key is never removed, so the final file is the
give-up keys followed by the untouched (never-attempted) tail, and
`|pending_before| = |pending_after| + |succeeded| +
|still-pending-after-give-up|`, where `pending_after` counts the keys the
run never attempted. -/
theorem runCrawl_conservation (outcome : String → Bool) (keys : List String)
    (m : ℕ) (hnd : keys.Nodup) (hstrip : ∀ k ∈ keys, pyStrip k = k) :
    (runCrawl outcome (keys.take m) keys).2.2 =
      (runCrawl outcome (keys.take m) keys).2.1 ++ keys.drop m ∧
    keys.length = (keys.drop m).length +
      (runCrawl outcome (keys.take m) keys).1.length +
      (runCrawl outcome (keys.take m) keys).2.1.length ∧
    (∀ k ∈ (runCrawl outcome (keys.take m) keys).1,
      k ∉ (runCrawl outcome (keys.take m) keys).2.2) := by
  have hsplit : keys.take m ++ keys.drop m = keys := List.take_append_drop m keys
  have hdisj : ∀ k ∈ keys.drop m, k ∉ keys.take m := by
    intro k hkd hkt
    have hnd' : (keys.take m ++ keys.drop m).Nodup := by rw [hsplit]; exact hnd
    exact (List.disjoint_of_nodup_append hnd') hkt hkd
  have hmemc : ∀ (s : List String) (k : String), s.contains k = true ↔ k ∈ s := by
    intro s k
    exact List.elem_iff
  have hfile : (runCrawl outcome (keys.take m) keys).2.2 =
      (runCrawl outcome (keys.take m) keys).2.1 ++ keys.drop m := by
    rw [runCrawl_file, runCrawl_gaveUp]
    have hcongr : keys.filter
        (fun l => !(((keys.take m).filter outcome).contains (pyStrip l))) =
        keys.filter (fun l => !(((keys.take m).filter outcome).contains l)) := by
      refine List.filter_congr ?_
      intro l hl
      rw [hstrip l hl]
    have hparts : keys.filter
        (fun l => !(((keys.take m).filter outcome).contains l)) =
        (keys.take m).filter
          (fun l => !(((keys.take m).filter outcome).contains l)) ++
        (keys.drop m).filter
          (fun l => !(((keys.take m).filter outcome).contains l)) := by
      rw [← List.filter_append, hsplit]
    rw [hcongr, hparts]
    congr 1
    · refine List.filter_congr ?_
      intro k hk
      by_cases ho : outcome k = true
      · have hc : ((keys.take m).filter outcome).contains k = true :=
          (hmemc _ _).mpr (List.mem_filter.mpr ⟨hk, ho⟩)
        show (!((keys.take m).filter outcome).contains k) = (!outcome k)
        rw [hc, ho]
      · have ho' : outcome k = false := by simpa using ho
        have hc : ((keys.take m).filter outcome).contains k = false := by
          cases hcb : ((keys.take m).filter outcome).contains k
          · rfl
          · exact absurd (List.mem_filter.mp ((hmemc _ _).mp hcb)).2 ho
        show (!((keys.take m).filter outcome).contains k) = (!outcome k)
        rw [hc, ho']
    · refine List.filter_eq_self.mpr ?_
      intro k hk
      have hc : ((keys.take m).filter outcome).contains k = false := by
        cases hcb : ((keys.take m).filter outcome).contains k
        · rfl
        · exact absurd (List.mem_filter.mp ((hmemc _ _).mp hcb)).1 (hdisj k hk)
      show (!((keys.take m).filter outcome).contains k) = true
      rw [hc]
      rfl
  refine ⟨hfile, ?_, ?_⟩
  · rw [runCrawl_succeeded, runCrawl_gaveUp]
    have h1 : ((keys.take m).filter outcome).length +
        ((keys.take m).filter (fun k => !outcome k)).length =
        (keys.take m).length := length_filter_split outcome (keys.take m)
    have h2 : (keys.take m).length + (keys.drop m).length = keys.length := by
      rw [List.length_take, List.length_drop]
      omega
    omega
  · intro k hks hkf
    rw [hfile] at hkf
    rw [runCrawl_succeeded] at hks
    rcases List.mem_append.mp hkf with hg | hd
    · rw [runCrawl_gaveUp] at hg
      have h1 := (List.mem_filter.mp hks).2
      have h2 := (List.mem_filter.mp hg).2
      simp [h1] at h2
    · exact hdisj k hd (List.mem_filter.mp hks).1

/-- C2 witness: a three-key run in which the first two keys are attempted
and only the first succeeds. -/
theorem runCrawl_conservation_witness :
    (runCrawl (fun k => k == "tt0111161")
        (["tt0111161", "tt0068646", "tt0468569"].take 2)
        ["tt0111161", "tt0068646", "tt0468569"]).2.2 =
      (runCrawl (fun k => k == "tt0111161")
        (["tt0111161", "tt0068646", "tt0468569"].take 2)
        ["tt0111161", "tt0068646", "tt0468569"]).2.1 ++
      (["tt0111161", "tt0068646", "tt0468569"] : List String).drop 2 ∧
    (["tt0111161", "tt0068646", "tt0468569"] : List String).length =
      ((["tt0111161", "tt0068646", "tt0468569"] : List String).drop 2).length +
      (runCrawl (fun k => k == "tt0111161")
        (["tt0111161", "tt0068646", "tt0468569"].take 2)
        ["tt0111161", "tt0068646", "tt0468569"]).1.length +
      (runCrawl (fun k => k == "tt0111161")
        (["tt0111161", "tt0068646", "tt0468569"].take 2)
        ["tt0111161", "tt0068646", "tt0468569"]).2.1.length ∧
    (∀ k ∈ (runCrawl (fun k => k == "tt0111161")
        (["tt0111161", "tt0068646", "tt0468569"].take 2)
        ["tt0111161", "tt0068646", "tt0468569"]).1,
      k ∉ (runCrawl (fun k => k == "tt0111161")
        (["tt0111161", "tt0068646", "tt0468569"].take 2)
        ["tt0111161", "tt0068646", "tt0468569"]).2.2) :=
  runCrawl_conservation (fun k => k == "tt0111161")
    ["tt0111161", "tt0068646", "tt0468569"] 2 (by decide) (by decide)

/-!  ## Fetch-retry protocol per key (claim C4)

`fetch_one` (imdb_crawler_playwright_multi_threaded.py lines 132-159):
`for attempt in range(1, RETRY_COUNT + 1)`: load the page; if the content
is a challenge page, reload once and re-check; if still a challenge raise,
landing in the retry handler; on success save then remove and return
`None`; after the loop return the id as failed.  `fetch i` is the content
produced by the i-th page load (goto or reload) for this key. -/

/-- `is_challenge_page` (lines 62-68): case-insensitive marker match. -/
def is_challenge_page (html : String) : Bool :=
  containsSub (pyLower html) "awswaf" ||
    containsSub (pyLower html) "challenge-container"

/-- Everything observable about one `fetch_one` call: the failed id it
returns (`none` on success), the saves and queue removals it performed,
and how many attempts and page loads it used. -/
structure FetchOutcome where
  failedId : Option String
  saved : List (String × String)
  removed : List String
  attempts : ℕ
  loads : ℕ
  deriving DecidableEq, Repr

/-- The retry loop of `fetch_one`, with `n` attempts remaining, `i` page
loads already issued and `done` attempts already spent. -/
def fetchOneGo (fetch : ℕ → String) (imdb_id : String) :
    ℕ → ℕ → ℕ → FetchOutcome
  | 0, i, done =>
    { failedId := some imdb_id, saved := [], removed := [],
      attempts := done, loads := i }
  | n + 1, i, done =>
    let html := fetch i
    if is_challenge_page html then
      let html2 := fetch (i + 1)
      if is_challenge_page html2 then
        fetchOneGo fetch imdb_id n (i + 2) (done + 1)
      else
        { failedId := none, saved := [(imdb_id, html2)],
          removed := [imdb_id], attempts := done + 1, loads := i + 2 }
    else
      { failedId := none, saved := [(imdb_id, html)],
        removed := [imdb_id], attempts := done + 1, loads := i + 1 }

/-- `fetch_one` for one key with the configured retry budget. -/
def fetchOne (fetch : ℕ → String) (imdb_id : String) (retryCount : ℕ) :
    FetchOutcome :=
  fetchOneGo fetch imdb_id retryCount 0 0

/-- Loop invariant for an always-challenged key: every attempt burns
exactly two page loads (the load plus the single reload re-check) and the
loop falls through to the failure return. -/
theorem fetchOneGo_challenge (fetch : ℕ → String) (imdb_id : String)
    (hch : ∀ i, is_challenge_page (fetch i) = true) :
    ∀ n i done, fetchOneGo fetch imdb_id n i done =
      { failedId := some imdb_id, saved := [], removed := [],
        attempts := done + n, loads := i + 2 * n } := by
  intro n
  induction n with
  | zero => intro i done; simp [fetchOneGo]
  | succ n ih =>
    intro i done
    simp only [fetchOneGo, hch i, hch (i + 1), if_true, ih (i + 2) (done + 1)]
    have h1 : done + 1 + n = done + (n + 1) := by omega
    have h2 : i + 2 + 2 * n = i + 2 * (n + 1) := by omega
    rw [h1, h2]

/-!  ## Theorems for claim C4 -/

/-- C4: a key whose every fetch returns challenge content is attempted
exactly `retryCount` times, each attempt issuing exactly one immediate
reload re-check (two page loads per attempt), and lands in the failed
outcome: it is never saved and never removed from the queue. -/
theorem fetchOne_always_challenge (fetch : ℕ → String) (imdb_id : String)
    (retryCount : ℕ) (hch : ∀ i, is_challenge_page (fetch i) = true) :
    fetchOne fetch imdb_id retryCount =
      { failedId := some imdb_id, saved := [], removed := [],
        attempts := retryCount, loads := 2 * retryCount } := by
  unfold fetchOne
  rw [fetchOneGo_challenge fetch imdb_id hch retryCount 0 0]
  simp

/-- C4 witness: a key that always receives the `awswaf` interstitial under
the source's configured budget `RETRY_COUNT = 2`. -/
theorem fetchOne_always_challenge_witness :
    fetchOne (fun _ => "awswaf") "tt0111161" 2 =
      { failedId := some "tt0111161", saved := [], removed := [],
        attempts := 2, loads := 4 } :=
  fetchOne_always_challenge (fun _ => "awswaf") "tt0111161" 2
    (fun _ => show is_challenge_page "awswaf" = true by decide)

/-!  ## Success commit order and crash window (claim C6)

`fetch_one` lines 144-145 run `await self.save_html(html, imdb_id)` and
then `self.remove_id_from_file(imdb_id)`.  `save_html` (lines 70-89)
creates the output directory if needed and opens `{imdb_id}.html` in mode
`"w"`, overwriting any existing artifact unconditionally.  The artifact
directory is modelled as a map from id to content, the queue as its line
list; a crash between the two steps is executing only the prefix of the
success action sequence that precedes the removal. -/

/-- Artifact store plus queue file. -/
structure SysState where
  store : String → Option String
  file : List String

/-- `save_html`: a total overwrite of the key's artifact. -/
def save_html (store : String → Option String) (imdb_id content : String) :
    String → Option String :=
  fun x => if x = imdb_id then some content else store x

/-- The two durable steps of the success path. -/
inductive CrawlAction where
  | save (imdb_id content : String)
  | removeKey (imdb_id : String)

/-- Effect of one step on the durable state. -/
def applyAction (s : SysState) : CrawlAction → SysState
  | .save imdb_id content =>
      { s with store := save_html s.store imdb_id content }
  | .removeKey imdb_id =>
      { s with file := removeId imdb_id s.file }

/-- The success path of `fetch_one` in source order: save, then remove. -/
def successActions (imdb_id content : String) : List CrawlAction :=
  [.save imdb_id content, .removeKey imdb_id]

/-- Run a sequence of durable steps. -/
def runActions (s : SysState) (acts : List CrawlAction) : SysState :=
  acts.foldl applyAction s

/-!  ## Theorems for claim C6 -/

/-- C6: the artifact save happens strictly before the queue removal — the
prefix of the success sequence before the removal already contains the
completed save.  A crash there leaves the queue file untouched, so the
key is still returned by the next `load()`; and reprocessing the key runs
the same sequence again, overwriting the artifact without error and only
then removing the key. -/
theorem save_before_remove_crash_safe (s : SysState) (imdb_id c1 c2 : String)
    (hmem : imdb_id ∈ s.file) (hstrip : pyStrip imdb_id = imdb_id)
    (hpre : pyStartsWith imdb_id "tt" = true) :
    (runActions s ((successActions imdb_id c1).take 1)).store imdb_id = some c1 ∧
    (runActions s ((successActions imdb_id c1).take 1)).file = s.file ∧
    imdb_id ∈ readIdsMulti
      (runActions s ((successActions imdb_id c1).take 1)).file ∧
    (runActions (runActions s ((successActions imdb_id c1).take 1))
        (successActions imdb_id c2)).store imdb_id = some c2 ∧
    imdb_id ∉ readIdsMulti
      (runActions (runActions s ((successActions imdb_id c1).take 1))
        (successActions imdb_id c2)).file := by
  have hload : imdb_id ∈ readIdsMulti s.file := by
    unfold readIdsMulti
    refine List.mem_map.mpr ⟨imdb_id, List.mem_filter.mpr ⟨hmem, ?_⟩, hstrip⟩
    rw [hstrip]
    exact hpre
  refine ⟨?_, rfl, ?_, ?_, ?_⟩
  · simp [runActions, successActions, applyAction, save_html]
  · exact hload
  · simp [runActions, successActions, applyAction, save_html]
  · intro hin
    simp only [runActions, successActions, applyAction, List.take,
      List.foldl] at hin
    unfold readIdsMulti at hin
    rcases List.mem_map.mp hin with ⟨l, hl, hpl⟩
    have hrem := (List.mem_filter.mp (List.mem_filter.mp hl).1).2
    rw [hpl] at hrem
    simp at hrem

/-- C6 witness: crash-and-reprocess evaluated on a concrete two-key queue
and two artifact versions for the first key. -/
theorem save_before_remove_witness :
    (runActions ⟨fun _ => none, ["tt0111161", "tt0068646"]⟩
        ((successActions "tt0111161" "v1").take 1)).store "tt0111161" = some "v1" ∧
    (runActions ⟨fun _ => none, ["tt0111161", "tt0068646"]⟩
        ((successActions "tt0111161" "v1").take 1)).file = ["tt0111161", "tt0068646"] ∧
    "tt0111161" ∈ readIdsMulti
      (runActions ⟨fun _ => none, ["tt0111161", "tt0068646"]⟩
        ((successActions "tt0111161" "v1").take 1)).file ∧
    (runActions (runActions ⟨fun _ => none, ["tt0111161", "tt0068646"]⟩
        ((successActions "tt0111161" "v1").take 1))
        (successActions "tt0111161" "v2")).store "tt0111161" = some "v2" ∧
    "tt0111161" ∉ readIdsMulti
      (runActions (runActions ⟨fun _ => none, ["tt0111161", "tt0068646"]⟩
        ((successActions "tt0111161" "v1").take 1))
        (successActions "tt0111161" "v2")).file :=
  save_before_remove_crash_safe ⟨fun _ => none, ["tt0111161", "tt0068646"]⟩
    "tt0111161" "v1" "v2" (by decide) (by decide) (by decide)

/-!  ## Serialized concurrent removals (claim C7)

`remove_id` (imdb_crawler_request.py lines 48-60) holds `self.lock`
(`threading.Lock`) around the whole read-filter-write cycle; in the
playwright multi-threaded variant `remove_id_from_file` (lines 45-60) runs
synchronously inside one coroutine with no `await` between the read and
the write, so the single-threaded asyncio loop cannot interleave two
removals either.  The cycle is modelled at statement granularity: acquire,
read (copy the file into the caller's local `lines`), write (rewrite the
file with the filtered copy), release.  A schedule interleaves two such
removals; a thread's acquire is enabled only while the other thread is
outside its critical section. -/

/-- Program counters (0 acquire, 1 read, 2 write, 3 release, 4 done),
local buffers and the shared queue file for two in-flight removals. -/
structure TwoRemovals where
  pcA : ℕ
  pcB : ℕ
  bufA : List String
  bufB : List String
  file : List String
  deriving DecidableEq, Repr

/-- Is a thread at this program counter inside the lock-protected
critical section? -/
def inCS (pc : ℕ) : Bool := 1 ≤ pc && pc ≤ 3

/-- One statement of `remove_id` for the key `k`: yields the new program
counter, local buffer and file, or `none` when the thread has no enabled
step (blocked on the lock, or already done). -/
def stepRemoval (k : String) (pcOther pc : ℕ) (buf file : List String) :
    Option (ℕ × List String × List String) :=
  match pc with
  | 0 => if inCS pcOther then none else some (1, buf, file)
  | 1 => some (2, file, file)
  | 2 => some (3, buf, removeId k buf)
  | 3 => some (4, buf, file)
  | _ => none

/-- Scheduler step: `true` runs thread A (removing `k1`), `false` thread B
(removing `k2`). -/
def stepSys (k1 k2 : String) (s : TwoRemovals) (t : Bool) :
    Option TwoRemovals :=
  if t then
    match stepRemoval k1 s.pcB s.pcA s.bufA s.file with
    | none => none
    | some (pc, buf, f) => some { s with pcA := pc, bufA := buf, file := f }
  else
    match stepRemoval k2 s.pcA s.pcB s.bufB s.file with
    | none => none
    | some (pc, buf, f) => some { s with pcB := pc, bufB := buf, file := f }

/-- Run a whole schedule; `none` when some chosen step was not enabled. -/
def execSched (k1 k2 : String) : List Bool → TwoRemovals → Option TwoRemovals
  | [], s => some s
  | t :: rest, s =>
    match stepSys k1 k2 s t with
    | none => none
    | some s2 => execSched k1 k2 rest s2

/-- Both removals pending, nothing read yet. -/
def initRemovals (file : List String) : TwoRemovals :=
  { pcA := 0, pcB := 0, bufA := [], bufB := [], file := file }

/-- The queue file as a function of which removals have already written:
the initial file minus each already-written key. -/
def fileSpec (k1 k2 : String) (f0 : List String) (wA wB : Bool) :
    List String :=
  f0.filter (fun l =>
    (!wA || (pyStrip l != k1)) && (!wB || (pyStrip l != k2)))

/-- Reachability invariant: mutual exclusion of the two critical
sections, the file determined by which threads have written, and an
in-section reader's buffer equal to the current file. -/
def InvR (k1 k2 : String) (f0 : List String) (s : TwoRemovals) : Prop :=
  ¬(inCS s.pcA = true ∧ inCS s.pcB = true) ∧
  s.file = fileSpec k1 k2 f0 (decide (3 ≤ s.pcA)) (decide (3 ≤ s.pcB)) ∧
  (s.pcA = 2 → s.bufA = s.file) ∧
  (s.pcB = 2 → s.bufB = s.file)

/-- A write inside the critical section advances `fileSpec` by one key. -/
theorem fileSpec_write_left (k1 k2 : String) (f0 : List String) (wB : Bool) :
    removeId k1 (fileSpec k1 k2 f0 false wB) = fileSpec k1 k2 f0 true wB := by
  unfold fileSpec removeId
  rw [List.filter_filter]
  refine List.filter_congr ?_
  intro a _
  cases hb : pyStrip a != k1 <;> cases hc : (!wB || (pyStrip a != k2)) <;>
    simp [hb, hc]

/-- Symmetric version for the second key. -/
theorem fileSpec_write_right (k1 k2 : String) (f0 : List String) (wA : Bool) :
    removeId k2 (fileSpec k1 k2 f0 wA false) = fileSpec k1 k2 f0 wA true := by
  unfold fileSpec removeId
  rw [List.filter_filter]
  refine List.filter_congr ?_
  intro a _
  cases hb : pyStrip a != k2 <;> cases hc : (!wA || (pyStrip a != k1)) <;>
    simp [hb, hc]

/-- One enabled scheduler step preserves the invariant. -/
theorem stepSys_preserves (k1 k2 : String) (f0 : List String)
    (s s' : TwoRemovals) (t : Bool) (hinv : InvR k1 k2 f0 s)
    (hstep : stepSys k1 k2 s t = some s') : InvR k1 k2 f0 s' := by
  obtain ⟨pcA, pcB, bufA, bufB, file⟩ := s
  obtain ⟨hmx, hf, hbA, hbB⟩ := hinv
  simp only at hmx hf hbA hbB
  cases t
  · -- thread B steps
    rcases pcB with _ | _ | _ | _ | n
    · -- acquire
      simp only [stepSys, stepRemoval, Bool.false_eq_true, if_false] at hstep
      by_cases hA : inCS pcA = true
      · simp [hA] at hstep
      · simp only [Bool.not_eq_true] at hA
        simp [hA] at hstep
        subst hstep
        refine ⟨?_, ?_, ?_, ?_⟩
        · intro hcon
          have h1 := hcon.1
          rw [hA] at h1
          exact Bool.false_ne_true h1
        · simpa using hf
        · intro h2
          exact hbA h2
        · intro h2
          simp at h2
    · -- read
      simp only [stepSys, stepRemoval] at hstep
      simp at hstep
      subst hstep
      refine ⟨?_, ?_, ?_, ?_⟩
      · intro hcon
        exact hmx ⟨hcon.1, by decide⟩
      · simpa using hf
      · intro h2
        simp only at h2
        exfalso
        exact hmx ⟨by rw [h2]; decide, by decide⟩
      · intro _
        rfl
    · -- write
      simp only [stepSys, stepRemoval] at hstep
      simp at hstep
      subst hstep
      have hbufB : bufB = file := hbB rfl
      refine ⟨?_, ?_, ?_, ?_⟩
      · intro hcon
        exact hmx ⟨hcon.1, by decide⟩
      · simp only
        rw [hbufB, hf]
        have hstage : decide (3 ≤ 2) = false := by decide
        rw [hstage]
        exact fileSpec_write_right k1 k2 f0 (decide (3 ≤ pcA))
      · intro h2
        simp only at h2
        exfalso
        exact hmx ⟨by rw [h2]; decide, by decide⟩
      · intro h2
        simp at h2
    · -- release
      simp only [stepSys, stepRemoval] at hstep
      simp at hstep
      subst hstep
      refine ⟨?_, ?_, ?_, ?_⟩
      · intro hcon
        have h2 := hcon.2
        simp [inCS] at h2
      · simpa using hf
      · intro h2
        simp only at h2
        exfalso
        exact hmx ⟨by rw [h2]; decide, by decide⟩
      · intro h2
        simp at h2
    · -- done: no step
      simp [stepSys, stepRemoval] at hstep
  · -- thread A steps
    rcases pcA with _ | _ | _ | _ | n
    · -- acquire
      simp only [stepSys, stepRemoval, if_true] at hstep
      by_cases hB : inCS pcB = true
      · simp [hB] at hstep
      · simp only [Bool.not_eq_true] at hB
        simp [hB] at hstep
        subst hstep
        refine ⟨?_, ?_, ?_, ?_⟩
        · intro hcon
          have h2 := hcon.2
          rw [hB] at h2
          exact Bool.false_ne_true h2
        · simpa using hf
        · intro h2
          simp at h2
        · intro h2
          exact hbB h2
    · -- read
      simp only [stepSys, stepRemoval] at hstep
      simp at hstep
      subst hstep
      refine ⟨?_, ?_, ?_, ?_⟩
      · intro hcon
        exact hmx ⟨by decide, hcon.2⟩
      · simpa using hf
      · intro _
        rfl
      · intro h2
        simp only at h2
        exfalso
        exact hmx ⟨by decide, by rw [h2]; decide⟩
    · -- write
      simp only [stepSys, stepRemoval] at hstep
      simp at hstep
      subst hstep
      have hbufA : bufA = file := hbA rfl
      refine ⟨?_, ?_, ?_, ?_⟩
      · intro hcon
        exact hmx ⟨by decide, hcon.2⟩
      · simp only
        rw [hbufA, hf]
        have hstage : decide (3 ≤ 2) = false := by decide
        rw [hstage]
        exact fileSpec_write_left k1 k2 f0 (decide (3 ≤ pcB))
      · intro h2
        simp at h2
      · intro h2
        simp only at h2
        exfalso
        exact hmx ⟨by decide, by rw [h2]; decide⟩
    · -- release
      simp only [stepSys, stepRemoval] at hstep
      simp at hstep
      subst hstep
      refine ⟨?_, ?_, ?_, ?_⟩
      · intro hcon
        have h1 := hcon.1
        simp [inCS] at h1
      · simpa using hf
      · intro h2
        simp at h2
      · intro h2
        simp only at h2
        exfalso
        exact hmx ⟨by decide, by rw [h2]; decide⟩
    · -- done: no step
      simp [stepSys, stepRemoval] at hstep

/-- The invariant holds along every enabled schedule. -/
theorem execSched_preserves (k1 k2 : String) (f0 : List String) :
    ∀ (sched : List Bool) (s s' : TwoRemovals), InvR k1 k2 f0 s →
      execSched k1 k2 sched s = some s' → InvR k1 k2 f0 s' := by
  intro sched
  induction sched with
  | nil =>
    intro s s' hinv hrun
    simp [execSched] at hrun
    subst hrun
    exact hinv
  | cons t rest ih =>
    intro s s' hinv hrun
    simp only [execSched] at hrun
    cases hstep : stepSys k1 k2 s t with
    | none => rw [hstep] at hrun; simp at hrun
    | some s2 =>
      rw [hstep] at hrun
      exact ih s2 s' (stepSys_preserves k1 k2 f0 s s2 t hinv hstep) hrun

/-- After both writes the file equals the sequential composition of the
two removals, in either order. -/
theorem fileSpec_done (k1 k2 : String) (f0 : List String) :
    fileSpec k1 k2 f0 true true = removeId k2 (removeId k1 f0) ∧
    fileSpec k1 k2 f0 true true = removeId k1 (removeId k2 f0) := by
  constructor <;>
  · unfold fileSpec removeId
    rw [List.filter_filter]
    refine List.filter_congr ?_
    intro a _
    cases h1 : pyStrip a != k1 <;> cases h2 : pyStrip a != k2 <;> simp [h1, h2]

/-!  ## Theorems for claim C7 -/

/-- C7: any interleaving of two concurrent removals that the lock allows
to run to completion leaves the queue file equal to the sequential result
of the two removals, in either order — the whole read-filter-write cycle
is serialized, so neither removal undoes the other's filtering and no
pending line is lost or duplicated. -/
theorem removals_serialize (k1 k2 : String) (f0 : List String)
    (sched : List Bool) (s' : TwoRemovals)
    (hrun : execSched k1 k2 sched (initRemovals f0) = some s')
    (hdoneA : s'.pcA = 4) (hdoneB : s'.pcB = 4) :
    s'.file = removeId k2 (removeId k1 f0) ∧
    s'.file = removeId k1 (removeId k2 f0) := by
  have hinit : InvR k1 k2 f0 (initRemovals f0) := by
    refine ⟨?_, ?_, ?_, ?_⟩
    · intro ⟨h1, _⟩
      simp [initRemovals, inCS] at h1
    · simp [initRemovals, fileSpec, List.filter_eq_self]
    · intro h
      simp [initRemovals] at h
    · intro h
      simp [initRemovals] at h
  have hinv := execSched_preserves k1 k2 f0 sched (initRemovals f0) s' hinit hrun
  have hfile := hinv.2.1
  rw [hdoneA, hdoneB] at hfile
  have hw : decide (3 ≤ 4) = true := by decide
  rw [hw] at hfile
  rw [hfile]
  exact fileSpec_done k1 k2 f0

/-- C7 witness: a complete lock-respecting schedule (thread A's whole
cycle, then thread B's) over a concrete three-line queue. -/
theorem removals_serialize_witness :
    ({ pcA := 4, pcB := 4,
       bufA := ["tt0111161", "tt0068646", "tt0468569"],
       bufB := ["tt0068646", "tt0468569"],
       file := ["tt0468569"] } : TwoRemovals).file =
      removeId "tt0068646"
        (removeId "tt0111161" ["tt0111161", "tt0068646", "tt0468569"]) ∧
    ({ pcA := 4, pcB := 4,
       bufA := ["tt0111161", "tt0068646", "tt0468569"],
       bufB := ["tt0068646", "tt0468569"],
       file := ["tt0468569"] } : TwoRemovals).file =
      removeId "tt0111161"
        (removeId "tt0068646" ["tt0111161", "tt0068646", "tt0468569"]) :=
  removals_serialize "tt0111161" "tt0068646"
    ["tt0111161", "tt0068646", "tt0468569"]
    [true, true, true, true, false, false, false, false]
    { pcA := 4, pcB := 4,
      bufA := ["tt0111161", "tt0068646", "tt0468569"],
      bufB := ["tt0068646", "tt0468569"],
      file := ["tt0468569"] }
    (by decide) rfl rfl

end IMDB
